import Mathlib

/-! # The structured-logging facade of `pkg/logger/logger.go`

A shallow embedding of the facade (`New`, `Logf`, `WithField`, `WithFields`,
`Infof`, `Errorf`, `Warningf`) together with the part of its two external
collaborators that the facade relies on:

* `fmt.Sprintf` of the Go standard library, for the verbs `%s`, `%v`, `%d`
  and `%%` (anything else is outside the model and yields `none`);
* `Entry` of `github.com/sirupsen/logrus` (imported as `log`): field
  attachment, which skips a value that is a function or a pointer to a
  function, and the level-tagged write call `Entry.Logf`.

A Go map is a finite partial function with unique keys; it is embedded as an
association list without duplicate keys (`AList`).  A `*csiLog` is an address
into a heap of `csiLog` records, so that mutation through the receiver and
aliasing of the returned handle can be stated.
-/

namespace Logger

/-! ## Values carried by `interface{}` -/

/-- The dynamic values an `interface{}` holds in this development: strings,
integers, `[]interface{}` slices (the shape a variadic argument list takes
when it is passed on as one operand), and the two kinds of value the backend
refuses as a field value: a function and a pointer to a function. -/
inductive Value where
  | str (s : String)
  | int (i : Int)
  | slice (xs : List Value)
  | func
  | funcPtr

/-- Go type `map[string]interface{}` (both `logger.Fields` and `log.Fields`). -/
abbrev Fields := AList (fun _ : String => Value)

/-! ## `fmt.Sprintf` (Go standard library), fragment -/

namespace fmt

/-- The verbs covered by the model. -/
inductive Verb where
  | s
  | v
  | d
  deriving DecidableEq

/-- Verb character after a percent sign. -/
def Verb.ofChar (c : Char) : Option Verb :=
  if c = 's' then some Verb.s
  else if c = 'v' then some Verb.v
  else if c = 'd' then some Verb.d
  else none

/-- Go spelling of `reflect.TypeOf(arg).String()`; `none` for a function or a
pointer to a function, whose rendering is outside the fragment. -/
def typeString : Value → Option (List Char)
  | .str _ => some "string".data
  | .int _ => some "int".data
  | .slice _ => some "[]interface \x7b\x7d".data
  | .func => none
  | .funcPtr => none

mutual
/-- Go `printArg(arg, verb)`: a string prints as itself under `%s` and `%v`, an
integer in decimal under `%d` and `%v`, a slice as its elements between
brackets separated by blanks; a verb that does not fit the operand prints
`%!verb(type=value)`.  `none` for a function or a pointer to a function (Go
prints an address), also inside a slice. -/
def printArg (verb : Verb) : Value → Option (List Char)
  | .str s =>
    match verb with
    | .d => some ("%!d(string=".data ++ s.data ++ [')'])
    | _ => some s.data
  | .int i =>
    match verb with
    | .s => some ("%!s(int=".data ++ (toString i).data ++ [')'])
    | _ => some (toString i).data
  | .slice xs =>
    match printArgs verb xs with
    | some body => some ('[' :: (body ++ [']']))
    | none => none
  | .func => none
  | .funcPtr => none
/-- Elements of a slice, separated by one blank. -/
def printArgs (verb : Verb) : List Value → Option (List Char)
  | [] => some []
  | [x] => printArg verb x
  | x :: y :: rest =>
    match printArg verb x, printArgs verb (y :: rest) with
    | some s, some t => some (s ++ ' ' :: t)
    | _, _ => none
end

/-- Operands left over after the format is consumed: `type=value`, separated
by a comma and a blank. -/
def extraArgs : List Value → Option (List Char)
  | [] => some []
  | [x] =>
    match typeString x, printArg Verb.v x with
    | some ty, some s => some (ty ++ '=' :: s)
    | _, _ => none
  | x :: y :: rest =>
    match typeString x, printArg Verb.v x, extraArgs (y :: rest) with
    | some ty, some s, some t => some (ty ++ '=' :: s ++ ',' :: ' ' :: t)
    | _, _, _ => none

/-- Go `doPrintf`: copies the format, replaces each verb by the next operand,
writes `%!verb(MISSING)` when the operands are used up, `%!(NOVERB)` for a
percent sign that ends the format and `%!(EXTRA ...)` for operands left over.
`none` when a directive or an operand outside the fragment occurs. -/
def doPrintf : List Char → List Value → Option (List Char)
  | [], [] => some []
  | [], x :: rest =>
    match extraArgs (x :: rest) with
    | some s => some ("%!(EXTRA ".data ++ s ++ [')'])
    | none => none
  | [c], a =>
    if c = '%' then ("%!(NOVERB)".data ++ ·) <$> doPrintf [] a
    else (c :: ·) <$> doPrintf [] a
  | c :: c' :: cs, a =>
    if c = '%' then
      if c' = '%' then ('%' :: ·) <$> doPrintf cs a
      else
        match Verb.ofChar c', a with
        | none, _ => none
        | some _, [] => (('%' :: '!' :: c' :: "(MISSING)".data) ++ ·) <$> doPrintf cs []
        | some verb, x :: rest =>
          match printArg verb x, doPrintf cs rest with
          | some s, some t => some (s ++ t)
          | _, _ => none
    else (c :: ·) <$> doPrintf (c' :: cs) a

/-- Go `fmt.Sprintf(format, a...)`. -/
def Sprintf (format : String) (a : List Value) : Option String :=
  String.mk <$> doPrintf format.data a

end fmt

/-! ## The logging backend (`github.com/sirupsen/logrus`, imported as `log`) -/

namespace log

/-- Backend level enumeration `log.Level`. -/
inductive Level where
  | PanicLevel
  | FatalLevel
  | ErrorLevel
  | WarnLevel
  | InfoLevel
  | DebugLevel
  | TraceLevel
  deriving DecidableEq, Repr

/-- Numeric value of a backend level (`PanicLevel` is 0). -/
def Level.toNat : Level → Nat
  | .PanicLevel => 0
  | .FatalLevel => 1
  | .ErrorLevel => 2
  | .WarnLevel => 3
  | .InfoLevel => 4
  | .DebugLevel => 5
  | .TraceLevel => 6

/-- Backend `Logger`: only its threshold level matters here. -/
structure Logger where
  Level : Level

/-- Backend `log.New()`: a logger with threshold `InfoLevel`. -/
def New : Logger := { Level := Level.InfoLevel }

/-- Backend `Logger.IsLevelEnabled`. -/
def Logger.IsLevelEnabled (logger : Logger) (level : log.Level) : Bool :=
  decide (level.toNat ≤ logger.Level.toNat)

/-- Backend `Entry`: a logger and the fields attached so far. -/
structure Entry where
  Logger : Logger
  Data : Fields

/-- Backend `NewEntry(logger)`: no fields. -/
def NewEntry (logger : Logger) : Entry := { Logger := logger, Data := ∅ }

/-- The loop `for k, v := range fields { data[k] = v }`. -/
def assignAll (data fields : Fields) : Fields :=
  fields.foldl (fun acc k v => acc.insert k v) data

/-- Backend test on a field value inside `Entry.WithFields`: its type is of
kind `Func`, or a pointer whose element is of kind `Func`. -/
def isErrField : Value → Bool
  | .func => true
  | .funcPtr => true
  | .str _ => false
  | .int _ => false
  | .slice _ => false

/-- The loop of `Entry.WithFields` over the given fields: a value that passes
`isErrField` is skipped (the backend only notes an error text on the entry,
which is not part of the field set), any other value is assigned. -/
def assignFields (data fields : Fields) : Fields :=
  fields.foldl (fun acc k v => if isErrField v then acc else acc.insert k v) data

/-- Backend `Entry.WithFields`: a new entry whose data is a copy of the
receiver's data with every given field assigned into it, except the fields
whose value is a function or a pointer to a function. -/
def Entry.WithFields (entry : Entry) (fields : Fields) : Entry :=
  { Logger := entry.Logger, Data := assignFields (assignAll ∅ entry.Data) fields }

/-- Backend `Entry.WithField`: `entry.WithFields(Fields{key: value})`. -/
def Entry.WithField (entry : Entry) (key : String) (value : Value) : Entry :=
  entry.WithFields (AList.singleton key value)

/-- Backend `Logger.WithFields`: `NewEntry(logger).WithFields(fields)`. -/
def Logger.WithFields (logger : Logger) (fields : Fields) : Entry :=
  (NewEntry logger).WithFields fields

/-- How a call comes back to its caller. -/
inductive Outcome where
  | returned
  | panicked
  | exited
  deriving DecidableEq, Repr

/-- One invocation of the level-tagged write call `Entry.Logf`, as the backend
receives it. -/
structure Call where
  entry : Entry
  level : Level
  format : String
  args : List Value

/-- Message the backend renders for a call: `fmt.Sprintf(format, args...)`. -/
def Call.message (c : Call) : Option String :=
  fmt.Sprintf c.format c.args

/-- What one write call does: the call itself, whether an entry is written to
the sink, and how the call comes back. -/
structure Trace where
  call : Call
  written : Bool
  outcome : Outcome

/-- Backend `Entry.Logf(level, format, args...)`: when the level is enabled the
entry is written, and a write at `PanicLevel` then panics.  The generic write
call never exits the process: `Exit(1)` is issued by `Fatalf`, `Fatal` and
`Fatalln` only, after they return from the write. -/
def Entry.Logf (entry : Entry) (level : Level) (format : String) (args : List Value) : Trace :=
  if entry.Logger.IsLevelEnabled level then
    { call := { entry := entry, level := level, format := format, args := args },
      written := true,
      outcome := if level.toNat ≤ Level.PanicLevel.toNat then Outcome.panicked else Outcome.returned }
  else
    { call := { entry := entry, level := level, format := format, args := args },
      written := false,
      outcome := Outcome.returned }

end log

/-! ## The facade -/

/-- Facade `type Level uint32`. -/
abbrev Level := Nat

def PanicLevel : Level := 0
def FatalLevel : Level := 1
def ErrorLevel : Level := 2
def WarnLevel : Level := 3
def InfoLevel : Level := 4
def DebugLevel : Level := 5
def TraceLevel : Level := 6

/-- The struct `csiLog`; only `logger` and `methodName` are ever assigned. -/
structure csiLog where
  err : Option String := none
  logger : log.Entry
  target : String := ""
  source : String := ""
  volumeID : String := ""
  snapshotID : String := ""
  methodName : String
  options : Option Value := none

/-- The struct literal built by `New(methodName, nodeID)`. -/
def New (methodName nodeID : String) : csiLog :=
  { methodName := methodName,
    logger := log.New.WithFields (AList.singleton "nodeID" (Value.str nodeID)) }

/-- The switch of `Logf` from the facade level to the backend level. -/
def logLevel (level : Level) : log.Level :=
  if level = PanicLevel then log.Level.PanicLevel
  else if level = FatalLevel then log.Level.FatalLevel
  else if level = ErrorLevel then log.Level.ErrorLevel
  else if level = WarnLevel then log.Level.WarnLevel
  else if level = InfoLevel then log.Level.InfoLevel
  else if level = DebugLevel then log.Level.WarnLevel
  else if level = TraceLevel then log.Level.TraceLevel
  else log.Level.InfoLevel

/-- Method `Logf`: the format is rewritten with `fmt.Sprintf("%s: %s", ...)`,
the level goes through the switch, and the backend write call receives the
variadic slice `args` as ONE operand (the source passes `args`, not
`args...`). -/
def csiLog.Logf (csi : csiLog) (level : Level) (format : String) (args : List Value) :
    Option log.Trace := do
  let format ← fmt.Sprintf "%s: %s" [Value.str csi.methodName, Value.str format]
  pure (csi.logger.Logf (logLevel level) format [Value.slice args])

/-- Method `WithField`: the record after `csi.logger = csi.logger.WithField(key, value)`. -/
def csiLog.WithField (csi : csiLog) (key : String) (value : Value) : csiLog :=
  { csi with logger := csi.logger.WithField key value }

/-- Method `WithFields`: the given map is copied into a fresh `log.Fields`,
which is then attached. -/
def csiLog.WithFields (csi : csiLog) (fields : Fields) : csiLog :=
  let logFileds := log.assignAll ∅ fields
  { csi with logger := csi.logger.WithFields logFileds }

/-- Method `Infof`: `csi.Logf(InfoLevel, format, args)`, the slice again as one
operand. -/
def csiLog.Infof (csi : csiLog) (format : String) (args : List Value) : Option log.Trace :=
  csi.Logf InfoLevel format [Value.slice args]

/-- Method `Errorf`. -/
def csiLog.Errorf (csi : csiLog) (format : String) (args : List Value) : Option log.Trace :=
  csi.Logf ErrorLevel format [Value.slice args]

/-- Method `Warningf`. -/
def csiLog.Warningf (csi : csiLog) (format : String) (args : List Value) : Option log.Trace :=
  csi.Logf WarnLevel format [Value.slice args]

/-! ## Handles: a `*csiLog` behind the `CSILogger` interface -/

/-- The allocated `csiLog` records; an address is an index. -/
structure Heap where
  objs : List csiLog

/-- A `*csiLog`. -/
abbrev Ptr := Nat

/-- Function `New`: allocates the struct literal and returns its address. -/
def Heap.New (h : Heap) (methodName nodeID : String) : Heap × Ptr :=
  ({ objs := h.objs ++ [Logger.New methodName nodeID] }, h.objs.length)

/-- Method `WithField` on a handle: assigns through the receiver and returns
the receiver (`return csi`).  `none` for an address that holds no record. -/
def Heap.WithField (h : Heap) (csi : Ptr) (key : String) (value : Value) : Option (Heap × Ptr) :=
  match h.objs[csi]? with
  | none => none
  | some obj => some ({ objs := h.objs.set csi (obj.WithField key value) }, csi)

/-- Method `WithFields` on a handle. -/
def Heap.WithFields (h : Heap) (csi : Ptr) (fields : Fields) : Option (Heap × Ptr) :=
  match h.objs[csi]? with
  | none => none
  | some obj => some ({ objs := h.objs.set csi (obj.WithFields fields) }, csi)

/-- Method `Logf` on a handle: reads the record, assigns nothing. -/
def Heap.Logf (h : Heap) (csi : Ptr) (level : Level) (format : String) (args : List Value) :
    Option log.Trace :=
  match h.objs[csi]? with
  | none => none
  | some obj => obj.Logf level format args

/-! ## Sequences of method calls on one logger -/

/-- One method call of the `CSILogger` interface. -/
inductive Op where
  | Logf (level : Level) (format : String) (args : List Value)
  | WithField (key : String) (value : Value)
  | WithFields (fields : Fields)
  | Infof (format : String) (args : List Value)
  | Errorf (format : String) (args : List Value)
  | Warningf (format : String) (args : List Value)

/-- The record after one call: the two attachment methods assign `logger`, the
logging methods assign nothing. -/
def csiLog.apply (csi : csiLog) : Op → csiLog
  | .WithField key value => csi.WithField key value
  | .WithFields fields => csi.WithFields fields
  | .Logf _ _ _ => csi
  | .Infof _ _ => csi
  | .Errorf _ _ => csi
  | .Warningf _ _ => csi

/-- The record after a sequence of calls. -/
def csiLog.run (csi : csiLog) (ops : List Op) : csiLog :=
  ops.foldl csiLog.apply csi

/-- The keys a call is given to attach. -/
def Op.keys : Op → List String
  | .WithField key _ => [key]
  | .WithFields fields => fields.keys
  | .Logf _ _ _ => []
  | .Infof _ _ => []
  | .Errorf _ _ => []
  | .Warningf _ _ => []

/-! ## Lemmas on the collaborators -/

theorem fmt.Sprintf_method_format (m f : String) :
    fmt.Sprintf "%s: %s" [Value.str m, Value.str f] = some (m ++ ": " ++ f) := by
  show String.mk <$> fmt.doPrintf ['%', 's', ':', ' ', '%', 's'] _ = _
  simp [fmt.doPrintf, fmt.Verb.ofChar, fmt.printArg]
  apply String.ext
  simp

theorem foldl_insert_lookup (l : List (Sigma fun _ : String => Value)) (hl : l.NodupKeys)
    (d : Fields) (j : String) :
    (l.foldl (fun r a => r.insert a.1 a.2) d).lookup j
      = if j ∈ l.keys then l.dlookup j else d.lookup j := by
  induction l generalizing d with
  | nil => simp
  | cons a l ih =>
    obtain ⟨hk, hl'⟩ := List.nodupKeys_cons.mp hl
    rw [List.foldl_cons, ih hl']
    obtain ⟨k, v⟩ := a
    by_cases hj : j = k
    · subst hj
      have hk' : j ∉ l.keys := hk
      simp [hk', AList.lookup_insert, List.dlookup_cons_eq]
    · have hj' : j ≠ (⟨k, v⟩ : Sigma fun _ : String => Value).1 := hj
      simp [hj, List.dlookup_cons_ne l _ hj', AList.lookup_insert_ne hj]

theorem log.lookup_assignAll (data fields : Fields) (j : String) :
    (log.assignAll data fields).lookup j
      = if j ∈ fields then fields.lookup j else data.lookup j := by
  unfold log.assignAll AList.foldl
  rw [foldl_insert_lookup _ fields.nodupKeys]
  by_cases h : j ∈ fields
  · have h' : j ∈ fields.entries.keys := h
    simp only [h, h', if_true]; rfl
  · have h' : j ∉ fields.entries.keys := h
    simp only [h, h', if_false]

theorem lookup_singleton (k j : String) (v : Value) :
    (AList.singleton k v : Fields).lookup j = if j = k then some v else none := by
  rw [← AList.insert_empty]
  by_cases h : j = k
  · subst h; simp only [AList.lookup_insert, if_true]
  · simp only [h, AList.lookup_insert_ne h, AList.lookup_empty, if_false]

theorem log.lookup_copy (fields : Fields) (j : String) :
    (log.assignAll ∅ fields).lookup j = fields.lookup j := by
  rw [log.lookup_assignAll]
  by_cases h : j ∈ fields
  · simp [h]
  · simp [h, AList.lookup_eq_none.mpr h]

theorem foldl_assign_lookup (l : List (Sigma fun _ : String => Value)) (hl : l.NodupKeys)
    (d : Fields) (j : String) :
    (l.foldl (fun r a => if log.isErrField a.2 then r else r.insert a.1 a.2) d).lookup j
      = match l.dlookup j with
        | some w => if log.isErrField w then d.lookup j else some w
        | none => d.lookup j := by
  induction l generalizing d with
  | nil => simp
  | cons a l ih =>
    obtain ⟨hk, hl'⟩ := List.nodupKeys_cons.mp hl
    rw [List.foldl_cons, ih hl']
    obtain ⟨k, v⟩ := a
    by_cases hj : j = k
    · subst hj
      have hk' : j ∉ l.keys := hk
      rw [List.dlookup_eq_none.mpr hk', List.dlookup_cons_eq]
      by_cases hv : log.isErrField v
      · simp [hv]
      · simp [hv, AList.lookup_insert]
    · have hj' : j ≠ (⟨k, v⟩ : Sigma fun _ : String => Value).1 := hj
      rw [List.dlookup_cons_ne l _ hj']
      have hd : (if log.isErrField v then d else d.insert k v).lookup j = d.lookup j := by
        by_cases hv : log.isErrField v
        · simp [hv]
        · simp [hv, AList.lookup_insert_ne hj]
      simp only [hd]

theorem log.lookup_assignFields (data fields : Fields) (j : String) :
    (log.assignFields data fields).lookup j
      = match fields.lookup j with
        | some w => if log.isErrField w then data.lookup j else some w
        | none => data.lookup j := by
  unfold log.assignFields AList.foldl
  rw [foldl_assign_lookup _ fields.nodupKeys]
  rfl

theorem log.Entry.lookup_WithFields (entry : log.Entry) (fields : Fields) (j : String) :
    (entry.WithFields fields).Data.lookup j
      = match fields.lookup j with
        | some w => if log.isErrField w then entry.Data.lookup j else some w
        | none => entry.Data.lookup j := by
  simp only [log.Entry.WithFields, log.lookup_assignFields, log.lookup_copy]

theorem log.Entry.lookup_WithField (entry : log.Entry) (key : String) (value : Value)
    (j : String) :
    (entry.WithField key value).Data.lookup j
      = if j = key ∧ log.isErrField value = false then some value
        else entry.Data.lookup j := by
  rw [log.Entry.WithField, log.Entry.lookup_WithFields, lookup_singleton]
  by_cases h : j = key
  · by_cases hv : log.isErrField value <;> simp [h, hv]
  · simp [h]

theorem log.Entry.Logf_call (entry : log.Entry) (level : log.Level) (format : String)
    (args : List Value) :
    (entry.Logf level format args).call
      = { entry := entry, level := level, format := format, args := args } := by
  unfold log.Entry.Logf
  split <;> rfl

theorem log.Entry.Logf_outcome (entry : log.Entry) (level : log.Level) (format : String)
    (args : List Value) (h : level ≠ log.Level.PanicLevel) :
    (entry.Logf level format args).outcome = log.Outcome.returned := by
  unfold log.Entry.Logf
  split
  · cases level <;> simp [log.Level.toNat] at h ⊢
  · rfl

theorem log.Entry.Logf_written (entry : log.Entry) (level : log.Level) (format : String)
    (args : List Value) :
    (entry.Logf level format args).written = entry.Logger.IsLevelEnabled level := by
  unfold log.Entry.Logf
  split <;> simp_all

/-! ## Lemmas on the facade -/

theorem csiLog.Logf_eq (csi : csiLog) (level : Level) (format : String) (args : List Value) :
    csi.Logf level format args
      = some (csi.logger.Logf (logLevel level) (csi.methodName ++ ": " ++ format)
          [Value.slice args]) := by
  simp [csiLog.Logf, fmt.Sprintf_method_format]

theorem csiLog.lookup_after_WithFields (csi : csiLog) (fields : Fields) (j : String) :
    (csi.WithFields fields).logger.Data.lookup j
      = match fields.lookup j with
        | some w => if log.isErrField w then csi.logger.Data.lookup j else some w
        | none => csi.logger.Data.lookup j := by
  simp only [csiLog.WithFields, log.Entry.lookup_WithFields, log.lookup_copy]

theorem csiLog.lookup_after_WithField (csi : csiLog) (key : String) (value : Value) (j : String) :
    (csi.WithField key value).logger.Data.lookup j
      = if j = key ∧ log.isErrField value = false then some value
        else csi.logger.Data.lookup j := by
  simp only [csiLog.WithField, log.Entry.lookup_WithField]

theorem csiLog.run_methodName (csi : csiLog) (ops : List Op) :
    (csi.run ops).methodName = csi.methodName := by
  unfold csiLog.run
  induction ops generalizing csi with
  | nil => rfl
  | cons op ops ih =>
    rw [List.foldl_cons, ih]
    cases op <;> rfl

theorem csiLog.run_Logger (csi : csiLog) (ops : List Op) :
    (csi.run ops).logger.Logger = csi.logger.Logger := by
  unfold csiLog.run
  induction ops generalizing csi with
  | nil => rfl
  | cons op ops ih =>
    rw [List.foldl_cons, ih]
    cases op <;> rfl

theorem csiLog.run_lookup (csi : csiLog) (ops : List Op) (j : String)
    (h : ∀ op ∈ ops, j ∉ op.keys) :
    (csi.run ops).logger.Data.lookup j = csi.logger.Data.lookup j := by
  unfold csiLog.run
  induction ops generalizing csi with
  | nil => rfl
  | cons op ops ih =>
    rw [List.foldl_cons, ih _ (fun o ho => h o (List.mem_cons_of_mem _ ho))]
    have hop := h op (List.mem_cons_self _ _)
    cases op with
    | WithField key value =>
      have hne : j ≠ key := by simpa [Op.keys] using hop
      simp [csiLog.apply, csiLog.lookup_after_WithField, hne]
    | WithFields fields =>
      have hmem : j ∉ fields := by simpa [Op.keys] using hop
      simp [csiLog.apply, csiLog.lookup_after_WithFields, AList.lookup_eq_none.mpr hmem]
    | Logf _ _ _ => rfl
    | Infof _ _ => rfl
    | Errorf _ _ => rfl
    | Warningf _ _ => rfl

theorem Value.slice_self_ne (args : List Value) : [Value.slice args] ≠ args := by
  intro h
  have hs := congrArg sizeOf h
  simp at hs
  omega

/-! ## The level table -/

/-- C1: for each of the seven facade levels the level that `Logf` hands to the
backend write call is the one of the mapping table (Debug goes to Warn), and
for no input level at all does the backend receive its Debug level. -/
theorem Logf_level_table (csi : csiLog) (format : String) (args : List Value) :
    (csi.Logf PanicLevel format args).map (fun t => t.call.level) = some log.Level.PanicLevel ∧
    (csi.Logf FatalLevel format args).map (fun t => t.call.level) = some log.Level.FatalLevel ∧
    (csi.Logf ErrorLevel format args).map (fun t => t.call.level) = some log.Level.ErrorLevel ∧
    (csi.Logf WarnLevel format args).map (fun t => t.call.level) = some log.Level.WarnLevel ∧
    (csi.Logf InfoLevel format args).map (fun t => t.call.level) = some log.Level.InfoLevel ∧
    (csi.Logf DebugLevel format args).map (fun t => t.call.level) = some log.Level.WarnLevel ∧
    (csi.Logf TraceLevel format args).map (fun t => t.call.level) = some log.Level.TraceLevel ∧
    ∀ level : Level, ∃ t, csi.Logf level format args = some t ∧
      t.call.level ≠ log.Level.DebugLevel := by
  refine ⟨?_, ?_, ?_, ?_, ?_, ?_, ?_, ?_⟩
  · simp [csiLog.Logf_eq, log.Entry.Logf_call, logLevel, PanicLevel]
  · simp [csiLog.Logf_eq, log.Entry.Logf_call, logLevel, PanicLevel, FatalLevel]
  · simp [csiLog.Logf_eq, log.Entry.Logf_call, logLevel, PanicLevel, FatalLevel, ErrorLevel]
  · simp [csiLog.Logf_eq, log.Entry.Logf_call, logLevel, PanicLevel, FatalLevel, ErrorLevel,
      WarnLevel]
  · simp [csiLog.Logf_eq, log.Entry.Logf_call, logLevel, PanicLevel, FatalLevel, ErrorLevel,
      WarnLevel, InfoLevel]
  · simp [csiLog.Logf_eq, log.Entry.Logf_call, logLevel, PanicLevel, FatalLevel, ErrorLevel,
      WarnLevel, InfoLevel, DebugLevel]
  · simp [csiLog.Logf_eq, log.Entry.Logf_call, logLevel, PanicLevel, FatalLevel, ErrorLevel,
      WarnLevel, InfoLevel, DebugLevel, TraceLevel]
  · intro level
    refine ⟨_, csiLog.Logf_eq csi level format args, ?_⟩
    rw [log.Entry.Logf_call]
    show logLevel level ≠ log.Level.DebugLevel
    unfold logLevel
    split_ifs <;> simp

/-- C2: for every uint32 level above `TraceLevel`, `Logf` produces its backend
call, the call is made at the backend's Info level, and it returns normally
(no panic, no exit). -/
theorem Logf_out_of_range (csi : csiLog) (level : Level) (format : String) (args : List Value)
    (hlo : TraceLevel < level) (hhi : level < 2 ^ 32) :
    ∃ t, csi.Logf level format args = some t ∧
      t.call.level = log.Level.InfoLevel ∧ t.outcome = log.Outcome.returned := by
  have hl : logLevel level = log.Level.InfoLevel := by
    unfold TraceLevel at hlo
    unfold logLevel PanicLevel FatalLevel ErrorLevel WarnLevel InfoLevel DebugLevel TraceLevel
    split_ifs <;> first | rfl | (exfalso; subst_vars; revert hlo; decide)
  refine ⟨_, csiLog.Logf_eq csi level format args, ?_, ?_⟩
  · rw [log.Entry.Logf_call]; exact hl
  · rw [hl]; exact log.Entry.Logf_outcome _ _ _ _ (by decide)

theorem Logf_out_of_range_witness :
    TraceLevel < 4294967295 ∧ 4294967295 < 2 ^ 32 ∧
    ∃ t, (New "Op" "node-7").Logf 4294967295 "x" [] = some t ∧
      t.call.level = log.Level.InfoLevel ∧ t.outcome = log.Outcome.returned :=
  ⟨by decide, by decide,
    Logf_out_of_range (New "Op" "node-7") 4294967295 "x" [] (by decide) (by decide)⟩

/-! ## The format string and the fields of the delegated call -/

/-- C3: on the logger made by `New(m, n)`, after any calls made on it so far,
`Logf` hands the backend the format string `m ++ ": " ++ f`, and the entry it
writes through is the logger's current one, carrying the accumulated fields. -/
theorem Logf_format_and_fields (m n : String) (ops : List Op) (level : Level) (f : String)
    (args : List Value) :
    ∃ t, ((New m n).run ops).Logf level f args = some t ∧
      t.call.format = m ++ ": " ++ f ∧
      t.call.entry = ((New m n).run ops).logger ∧
      t.call.entry.Data = ((New m n).run ops).logger.Data := by
  refine ⟨_, csiLog.Logf_eq _ level f args, ?_, ?_, ?_⟩
  · rw [log.Entry.Logf_call, csiLog.run_methodName]
    rfl
  · rw [log.Entry.Logf_call]
  · rw [log.Entry.Logf_call]

/-- C4 (what the code does): `Infof(f)` with no arguments on `New(m, n)` hands
the backend a ONE-element argument list, the slice that holds the empty slice,
not an empty list; for `New("CreateVolume","node-1").Infof("starting")` the
backend renders `CreateVolume: starting%!(EXTRA []interface {}=[[]])`. -/
theorem Infof_no_args_backend_call (m n f : String) :
    ((New m n).Infof f []).map (fun t => (t.call.format, t.call.args))
      = some (m ++ ": " ++ f, [Value.slice [Value.slice []]]) ∧
    ((New "CreateVolume" "node-1").Infof "starting" []).map (fun t => t.call.message)
      = some (some "CreateVolume: starting%!(EXTRA []interface \x7b\x7d=[[]])") := by
  constructor
  · simp [csiLog.Infof, csiLog.Logf_eq, log.Entry.Logf_call, New]
  · simp only [csiLog.Infof, csiLog.Logf_eq, log.Entry.Logf_call, Option.map, log.Call.message]
    decide

/-- C5 (what the code does): each wrapper agrees with `Logf` at its level on
the backend level, the format string and the entry, but not on the argument
list: the wrapper hands the backend the slice of the slice of its arguments,
`Logf` the slice of its arguments, and the two calls differ for every input. -/
theorem wrappers_nest_arguments (csi : csiLog) (f : String) (args : List Value) :
    (csi.Infof f args).map (fun t => (t.call.level, t.call.format, t.call.args))
      = some (log.Level.InfoLevel, csi.methodName ++ ": " ++ f,
          [Value.slice [Value.slice args]]) ∧
    (csi.Logf InfoLevel f args).map (fun t => (t.call.level, t.call.format, t.call.args))
      = some (log.Level.InfoLevel, csi.methodName ++ ": " ++ f, [Value.slice args]) ∧
    csi.Infof f args ≠ csi.Logf InfoLevel f args ∧
    csi.Errorf f args ≠ csi.Logf ErrorLevel f args ∧
    csi.Warningf f args ≠ csi.Logf WarnLevel f args := by
  have key : ∀ level : Level,
      csi.Logf level f [Value.slice args] ≠ csi.Logf level f args := by
    intro level h
    rw [csiLog.Logf_eq, csiLog.Logf_eq] at h
    have h2 := congrArg (fun t : log.Trace => t.call.args) (Option.some.inj h)
    simp only [log.Entry.Logf_call] at h2
    have h3 : [Value.slice args] = args := by
      injection h2 with h4 _
      injection h4
    exact Value.slice_self_ne args h3
  refine ⟨?_, ?_, key InfoLevel, key ErrorLevel, key WarnLevel⟩
  · simp [csiLog.Infof, csiLog.Logf_eq, log.Entry.Logf_call, logLevel, PanicLevel, FatalLevel,
      ErrorLevel, WarnLevel, InfoLevel]
  · simp [csiLog.Logf_eq, log.Entry.Logf_call, logLevel, PanicLevel, FatalLevel,
      ErrorLevel, WarnLevel, InfoLevel]

/-! ## Construction and field attachment -/

/-- C6: `New(m, n)` is total; the record it builds has method name `m` and a
field set of exactly one entry, `nodeID` bound to `n`, and the handle it
returns addresses that record. -/
theorem New_fields (m n : String) :
    (New m n).methodName = m ∧
    (New m n).logger.Data.entries = [⟨"nodeID", Value.str n⟩] ∧
    (New m n).logger.Data.lookup "nodeID" = some (Value.str n) ∧
    ∀ h : Heap, (h.New m n).1.objs[(h.New m n).2]? = some (New m n) := by
  refine ⟨rfl, rfl, rfl, ?_⟩
  intro h
  simp [Heap.New]

/-- C7 (as stated, refuted): a value that is a function is not attached, so
after `WithFields` with an empty map and `WithField("f", v)` with `v` a function
on `New("Op","node-7")` the key `f` does not map to `v`. -/
theorem WithField_func_not_attached :
    ¬ ∀ (csi : csiLog) (fs : Fields) (k : String) (v : Value),
        ((csi.WithFields fs).WithField k v).logger.Data.lookup k = some v := by
  intro hall
  have h := hall (New "Op" "node-7") ∅ "f" Value.func
  have h2 : (((New "Op" "node-7").WithFields ∅).WithField "f" Value.func).logger.Data.lookup "f"
      = none := rfl
  rw [h2] at h
  cases h

/-- C7 (amended): after `WithFields(fs)` and then `WithField(k, v)` the field
set is the old one overridden by the entries of `fs` whose value is neither a
function nor a pointer to a function, and then by `k -> v` when `v` is neither:
`k` then maps to `v`, any other key that `fs` binds to such a value maps to its
value in `fs`, any remaining key keeps its old value; every old key is still
present and no key occurs twice. -/
theorem WithFields_WithField_overrides (csi : csiLog) (fs : Fields) (k : String) (v : Value) :
    (∀ j : String, ((csi.WithFields fs).WithField k v).logger.Data.lookup j
        = if j = k ∧ log.isErrField v = false then some v
          else match fs.lookup j with
            | some w => if log.isErrField w then csi.logger.Data.lookup j else some w
            | none => csi.logger.Data.lookup j) ∧
    csi.logger.Data.keys ⊆ ((csi.WithFields fs).WithField k v).logger.Data.keys ∧
    ((csi.WithFields fs).WithField k v).logger.Data.keys.Nodup := by
  have hl : ∀ j : String, ((csi.WithFields fs).WithField k v).logger.Data.lookup j
        = if j = k ∧ log.isErrField v = false then some v
          else match fs.lookup j with
            | some w => if log.isErrField w then csi.logger.Data.lookup j else some w
            | none => csi.logger.Data.lookup j := by
    intro j
    rw [csiLog.lookup_after_WithField, csiLog.lookup_after_WithFields]
  refine ⟨hl, ?_, AList.keys_nodup _⟩
  intro j hj
  have hj1 : (csi.logger.Data.lookup j).isSome = true := AList.lookup_isSome.mpr hj
  show j ∈ ((csi.WithFields fs).WithField k v).logger.Data
  rw [← AList.lookup_isSome, hl]
  by_cases h1 : j = k ∧ log.isErrField v = false
  · simp [h1]
  · rw [if_neg h1]
    cases hfs : fs.lookup j with
    | none => simpa using hj1
    | some w =>
      by_cases hw : log.isErrField w
      · simpa [hw] using hj1
      · simp [hw]

/-- The example of the specification: `{"a":1,"b":2}` attached to
`New("Op","node-7")` and then `a -> 3` leaves `a -> 3`, `b -> 2` and the
`nodeID` field, three keys in all. -/
theorem WithFields_WithField_example :
    let fs : Fields := (AList.singleton "b" (Value.int 2)).insert "a" (Value.int 1)
    let csi := ((New "Op" "node-7").WithFields fs).WithField "a" (Value.int 3)
    csi.logger.Data.lookup "a" = some (Value.int 3) ∧
    csi.logger.Data.lookup "b" = some (Value.int 2) ∧
    csi.logger.Data.lookup "nodeID" = some (Value.str "node-7") ∧
    csi.logger.Data.keys.length = 3 := by
  refine ⟨rfl, rfl, rfl, rfl⟩

/-- C8 (as stated, refuted): after `WithField("f", v)` with `v` a function on
the handle of `New("Op","node-7")`, the entry that `Logf` delegates through
does not map `f` to `v`. -/
theorem WithField_func_then_Logf :
    ¬ ∀ (h : Heap) (csi : Ptr) (obj : csiLog) (k : String) (v : Value) (level : Level)
        (f : String) (args : List Value), h.objs[csi]? = some obj →
        ∃ h1 r t, h.WithField csi k v = some (h1, r) ∧ r = csi ∧
          h1.Logf csi level f args = some t ∧ h1.Logf r level f args = some t ∧
          t.call.entry.Data.lookup k = some v := by
  intro hall
  obtain ⟨h1, r, t, hw, _, hlog, _, hk⟩ :=
    hall ((Heap.mk []).New "Op" "node-7").1 0 (New "Op" "node-7") "f" Value.func InfoLevel "x" []
      rfl
  have e : ((Heap.mk []).New "Op" "node-7").1.WithField 0 "f" Value.func
      = some ({ objs := [(New "Op" "node-7").WithField "f" Value.func] }, 0) := rfl
  rw [e] at hw
  have h1eq : h1 = { objs := [(New "Op" "node-7").WithField "f" Value.func] } :=
    (congrArg Prod.fst (Option.some.inj hw)).symm
  subst h1eq
  have e2 : (Heap.mk [(New "Op" "node-7").WithField "f" Value.func]).Logf 0 InfoLevel "x" []
      = ((New "Op" "node-7").WithField "f" Value.func).Logf InfoLevel "x" [] := rfl
  rw [e2, csiLog.Logf_eq] at hlog
  have ht := Option.some.inj hlog
  rw [← ht, log.Entry.Logf_call] at hk
  have e3 : ((New "Op" "node-7").WithField "f" Value.func).logger.Data.lookup "f" = none := rfl
  have hk2 : ((New "Op" "node-7").WithField "f" Value.func).logger.Data.lookup "f"
      = some Value.func := hk
  rw [e3] at hk2
  cases hk2

/-- C8 (amended): after `WithField(k, v)` on a handle, the returned handle is
the receiver itself, and `Logf` at any level, on the receiver as on the
returned handle, delegates through the same entry; its field set maps `k` to
`v` when `v` is neither a function nor a pointer to a function, and otherwise
binds `k` as before the call. -/
theorem WithField_then_Logf (h : Heap) (csi : Ptr) (obj : csiLog)
    (hobj : h.objs[csi]? = some obj) (k : String) (v : Value) (level : Level) (f : String)
    (args : List Value) :
    ∃ h1 r t, h.WithField csi k v = some (h1, r) ∧ r = csi ∧
      h1.Logf csi level f args = some t ∧ h1.Logf r level f args = some t ∧
      t.call.entry.Data.lookup k
        = if log.isErrField v then obj.logger.Data.lookup k else some v := by
  have hlt : csi < h.objs.length := by
    rcases Nat.lt_or_ge csi h.objs.length with hlt | hge
    · exact hlt
    · rw [List.getElem?_eq_none hge] at hobj
      cases hobj
  have hget : (h.objs.set csi (obj.WithField k v))[csi]? = some (obj.WithField k v) := by
    simp [hlt]
  refine ⟨{ objs := h.objs.set csi (obj.WithField k v) }, csi,
    (obj.WithField k v).logger.Logf (logLevel level) ((obj.WithField k v).methodName ++ ": " ++ f)
      [Value.slice args], ?_, rfl, ?_, ?_, ?_⟩
  · simp [Heap.WithField, hobj]
  · simp only [Heap.Logf, hget]
    exact csiLog.Logf_eq _ level f args
  · simp only [Heap.Logf, hget]
    exact csiLog.Logf_eq _ level f args
  · rw [log.Entry.Logf_call]
    show (obj.WithField k v).logger.Data.lookup k = _
    rw [csiLog.lookup_after_WithField]
    by_cases hv : log.isErrField v <;> simp [hv]

theorem WithField_then_Logf_witness :
    ((Heap.mk []).New "Op" "node-7").1.objs[0]? = some (New "Op" "node-7") ∧
    ∃ h1 r t, ((Heap.mk []).New "Op" "node-7").1.WithField 0 "volumeID" (Value.str "vol-1")
        = some (h1, r) ∧ r = 0 ∧
      h1.Logf 0 InfoLevel "attached" [] = some t ∧
      h1.Logf r InfoLevel "attached" [] = some t ∧
      t.call.entry.Data.lookup "volumeID" = some (Value.str "vol-1") :=
  ⟨rfl, WithField_then_Logf ((Heap.mk []).New "Op" "node-7").1 0 (New "Op" "node-7") rfl
    "volumeID" (Value.str "vol-1") InfoLevel "attached" []⟩

/-! ## What stays fixed on a logger -/

/-- C9 (as stated, refuted): the `nodeID` field does not survive every sequence
of calls; `WithField("nodeID", "other")` on `New("Op","node-7")` rebinds it. -/
theorem nodeID_overwritten :
    ¬ ∀ (m n : String) (ops : List Op),
        ((New m n).run ops).logger.Data.lookup "nodeID" = some (Value.str n) := by
  intro hall
  have h := hall "Op" "node-7" [Op.WithField "nodeID" (Value.str "other")]
  have h2 : ((New "Op" "node-7").run [Op.WithField "nodeID" (Value.str "other")]).logger.Data.lookup
      "nodeID" = some (Value.str "other") := rfl
  rw [h2] at h
  injection h with h3
  injection h3 with h4
  exact absurd h4 (by decide)

/-- C9 (amended): after any sequence of calls on `New(m, n)` the method name
is still `m`; and when none of the calls attaches the key `nodeID`, the
`nodeID` field is still `n`. -/
theorem nodeID_kept_unless_attached (m n : String) (ops : List Op) :
    ((New m n).run ops).methodName = m ∧
    ((∀ op ∈ ops, "nodeID" ∉ op.keys) →
      ((New m n).run ops).logger.Data.lookup "nodeID" = some (Value.str n)) := by
  refine ⟨?_, ?_⟩
  · rw [csiLog.run_methodName]
    rfl
  · intro h
    rw [csiLog.run_lookup _ _ _ h]
    rfl

theorem nodeID_kept_unless_attached_witness :
    (∀ op ∈ [Op.WithField "volumeID" (Value.str "vol-1"), Op.Infof "attached" [],
        Op.WithFields (AList.singleton "snapshotID" (Value.int 9))], "nodeID" ∉ op.keys) ∧
    ((New "Op" "node-7").run [Op.WithField "volumeID" (Value.str "vol-1"), Op.Infof "attached" [],
        Op.WithFields (AList.singleton "snapshotID" (Value.int 9))]).methodName = "Op" ∧
    ((New "Op" "node-7").run [Op.WithField "volumeID" (Value.str "vol-1"), Op.Infof "attached" [],
        Op.WithFields (AList.singleton "snapshotID" (Value.int 9))]).logger.Data.lookup "nodeID"
      = some (Value.str "node-7") :=
  ⟨by simp [Op.keys],
    (nodeID_kept_unless_attached "Op" "node-7" _).1,
    (nodeID_kept_unless_attached "Op" "node-7" _).2 (by simp [Op.keys])⟩

/-! ## The Fatal level -/

/-- C10 (what the code does): `Logf` at `FatalLevel` makes one generic backend
write call at the backend's Fatal level and that call returns normally to the
caller, no exit follows; on a logger made by `New` the entry is written. -/
theorem Logf_Fatal_returns (csi : csiLog) (m n : String) (ops : List Op) (f : String)
    (args : List Value) :
    (∃ t, csi.Logf FatalLevel f args = some t ∧
      t.call.level = log.Level.FatalLevel ∧
      t.outcome = log.Outcome.returned ∧ t.outcome ≠ log.Outcome.exited) ∧
    (((New m n).run ops).Logf FatalLevel f args).map (fun t => (t.written, t.outcome))
      = some (true, log.Outcome.returned) := by
  have hl : logLevel FatalLevel = log.Level.FatalLevel := by decide
  have ho : ∀ c : csiLog, (c.logger.Logf (logLevel FatalLevel) (c.methodName ++ ": " ++ f)
      [Value.slice args]).outcome = log.Outcome.returned := by
    intro c
    rw [hl]; exact log.Entry.Logf_outcome _ _ _ _ (by decide)
  refine ⟨⟨_, csiLog.Logf_eq csi FatalLevel f args, ?_, ho csi, ?_⟩, ?_⟩
  · rw [log.Entry.Logf_call]; exact hl
  · rw [ho]; decide
  · rw [csiLog.Logf_eq, Option.map_some', ho, log.Entry.Logf_written, csiLog.run_Logger, hl]
    rfl

end Logger
